import Mathlib

/-!
Verification of the Theia keybinding subsystem
(`packages/core/src/common/keybinding.ts`).

The `KeyCode` value model (`keys.ts`) and the command directory
(`command.ts`) are external collaborators of the keybinding registry and
are not part of the sources under verification; they are modelled from the
specification (sections 3, 4.1 and 6).  Everything in the `Theia`
namespace below `KeybindingScope` is a direct shallow embedding of
`keybinding.ts`.
-/

deriving instance DecidableEq for Except

namespace Theia

/-- Modelled from the spec: the set of recognized physical keys (`keys.ts`
is not among the sources).  A representative finite set containing every
key the specification and the unit tests exercise. -/
inductive Key where
  | keyA
  | keyB
  | keyC
  | f1
  | f2
  | f3
  | backquote
  | tab
deriving DecidableEq, Repr, Fintype

/-- Modelled from the spec: the canonical lowercase string of a key, as
used by the serialization grammar. -/
def Key.toKeyString : Key → String
  | .keyA => "a"
  | .keyB => "b"
  | .keyC => "c"
  | .f1 => "f1"
  | .f2 => "f2"
  | .f3 => "f3"
  | .backquote => "`"
  | .tab => "tab"

/-- Modelled from the spec: recognizing a key token while parsing.
Unrecognized tokens yield `none` (a `ParseError` in the source). -/
def Key.ofString? (s : String) : Option Key :=
  if s == "a" then some .keyA
  else if s == "b" then some .keyB
  else if s == "c" then some .keyC
  else if s == "f1" then some .f1
  else if s == "f2" then some .f2
  else if s == "f3" then some .f3
  else if s == "`" then some .backquote
  else if s == "tab" then some .tab
  else none

/-- Modelled from the spec: an immutable Key Code value, a primary key
plus the normalized modifier set (ctrl / meta / shift / alt). -/
structure KeyCode where
  key : Key
  ctrl : Bool
  meta : Bool
  shift : Bool
  alt : Bool
deriving DecidableEq, Repr, Fintype

/-- Modelled from the spec: structural equality over the primary key and
the full modifier set. -/
def KeyCode.equals (a b : KeyCode) : Bool :=
  a == b

/-- Modelled from the spec: splitting a keystroke string on `+`
(structurally over the character list, so that concrete keystrokes
evaluate inside the kernel). -/
def splitTokens (acc : List Char) : List Char → List String
  | [] => [String.mk acc.reverse]
  | c :: rest =>
    if c == '+' then String.mk acc.reverse :: splitTokens [] rest
    else splitTokens (c :: acc) rest

/-- Modelled from the spec: the `+`-separated tokens of a keystroke. -/
def tokenize (s : String) : List String :=
  splitTokens [] s.data

/-- Modelled from the spec: the state of the keystroke parser while
consuming `+`-separated tokens. -/
structure ParseState where
  key : Option Key
  ctrl : Bool
  meta : Bool
  shift : Bool
  alt : Bool

/-- Modelled from the spec: consume the tokens of a keystroke string.
`ctrl`/`shift`/`alt`/`option` set modifier flags; `meta`/`cmd` are
Apple-only; `ctrlcmd` resolves to meta on Apple hosts and ctrl elsewhere;
any other token must be a recognized key, and at most one primary key may
appear. -/
def KeyCode.parseTokens (isOSX : Bool) (keystroke : String) :
    ParseState → List String → Except String KeyCode
  | st, [] =>
    match st.key with
    | some k => .ok ⟨k, st.ctrl, st.meta, st.shift, st.alt⟩
    | none => .error ("Missing key in " ++ keystroke)
  | st, token :: rest =>
    if token == "ctrl" then
      parseTokens isOSX keystroke { st with ctrl := true } rest
    else if token == "shift" then
      parseTokens isOSX keystroke { st with shift := true } rest
    else if token == "alt" || token == "option" then
      parseTokens isOSX keystroke { st with alt := true } rest
    else if token == "meta" || token == "cmd" then
      if isOSX then
        parseTokens isOSX keystroke { st with meta := true } rest
      else
        .error ("Cannot parse keybinding " ++ keystroke ++ " meta is for OSX only")
    else if token == "ctrlcmd" then
      if isOSX then
        parseTokens isOSX keystroke { st with meta := true } rest
      else
        parseTokens isOSX keystroke { st with ctrl := true } rest
    else
      match Key.ofString? token with
      | some k =>
        match st.key with
        | none => parseTokens isOSX keystroke { st with key := some k } rest
        | some _ => .error ("Two keys in " ++ keystroke)
      | none => .error ("Unrecognized key in " ++ keystroke)

/-- Modelled from the spec: `KeyCode.parse` splits the keystroke string on
`+` and tokenizes each part; failures are `ParseError`s, here the error
branch of `Except`. -/
def KeyCode.parse (isOSX : Bool) (keystroke : String) : Except String KeyCode :=
  parseTokens isOSX keystroke ⟨none, false, false, false, false⟩ (tokenize keystroke)

/-- Modelled from the spec: join serialized parts with `+`. -/
def joinPlus : List String → String
  | [] => ""
  | [s] => s
  | s :: rest => s ++ "+" ++ joinPlus rest

/-- Modelled from the spec: canonical serialization, modifiers first in
the fixed order ctrl / meta, shift, alt, lowercase, `+`-joined. -/
def KeyCode.toString (kc : KeyCode) : String :=
  joinPlus
    ((if kc.ctrl then ["ctrl"] else [])
      ++ (if kc.meta then ["meta"] else [])
      ++ (if kc.shift then ["shift"] else [])
      ++ (if kc.alt then ["alt"] else [])
      ++ [kc.key.toKeyString])

/-! The keybinding registry (`keybinding.ts`). -/

/-- A keybinding: command identifier, keybinding string and optional
context identifier (`Keybinding` in `keybinding.ts`). -/
structure Keybinding where
  command : String
  keybinding : String
  context : Option String := none
deriving DecidableEq, Repr

/-- Modelled from the spec: a command of the external command directory
(`command.ts` is not among the sources); only its identifier matters to
the keybinding registry. -/
structure Command where
  id : String
deriving DecidableEq, Repr

/-- A keybinding context: unique identifier plus the enabledness
predicate (`KeybindingContext` in `keybinding.ts`). -/
structure KeybindingContext where
  id : String
  isEnabled : Keybinding → Bool

/-- The state of `KeybindingContextRegistry`: the registered contexts,
ordered by registration (the source keeps them in a map keyed by id;
lookup is by id in both representations). -/
abbrev ContextRegistryState := List KeybindingContext

/-- `KeybindingContextRegistry.getContext`: lookup by context id. -/
def getContext (contexts : ContextRegistryState) (contextId : String) :
    Option KeybindingContext :=
  contexts.find? (fun c => c.id == contextId)

/-- `KeybindingContextRegistry.registerContext`: registers each argument
in order; throws (modelled as `Except.error`) when a context with the
same id is already registered. -/
def registerContext (contexts : ContextRegistryState) :
    List KeybindingContext → Except String ContextRegistryState
  | [] => .ok contexts
  | c :: rest =>
    if (getContext contexts c.id).isSome then
      .error ("A keybinding context with ID " ++ c.id ++ " is already registered.")
    else
      registerContext (contexts ++ [c]) rest

/-- `KeybindingContexts.NOOP_CONTEXT`: always enabled. -/
def NOOP_CONTEXT : KeybindingContext :=
  ⟨"noop.keybinding.context", fun _ => true⟩

/-- `KeybindingContexts.DEFAULT_CONTEXT`: never enabled. -/
def DEFAULT_CONTEXT : KeybindingContext :=
  ⟨"default.keybinding.context", fun _ => false⟩

/-- The `KeybindingContextRegistry` constructor registers the two
built-in contexts. -/
def initialContexts : ContextRegistryState :=
  [NOOP_CONTEXT, DEFAULT_CONTEXT]

/- The numeric values of the `KeybindingScope` enum. -/
namespace KeybindingScope

def DEFAULT : Nat := 0

def USER : Nat := 1

def WORKSPACE : Nat := 2

def END : Nat := 3

end KeybindingScope

/-- `KeybindingRegistry.PASSTHROUGH_PSEUDO_COMMAND`. -/
def PASSTHROUGH_PSEUDO_COMMAND : String := "passthrough"

/-- The collaborators injected into `KeybindingRegistry`: the host
platform flag consumed by `KeyCode.parse`, the command directory
(`getCommand` / `getActiveHandler`, modelled from the spec as a list of
registered commands plus the set of command ids that currently have an
active handler) and the context registry. -/
structure Env where
  isOSX : Bool
  commands : List Command
  activeHandlers : List String
  contexts : ContextRegistryState

/-- Modelled from the spec: `CommandRegistry.getCommand` returns the
command registered under the queried id, if any. -/
def Env.getCommand (env : Env) (id : String) : Option Command :=
  env.commands.find? (fun c => c.id == id)

/-- Modelled from the spec: whether `CommandRegistry.getActiveHandler`
returns a handler for the given command id. -/
def Env.hasActiveHandler (env : Env) (id : String) : Bool :=
  env.activeHandlers.contains id

/-- The mutable state of `KeybindingRegistry`: one binding list per scope
(the constructor initializes one empty list for each scope below
`END`; indices outside that range are never read unguarded). -/
structure KeybindingRegistryState where
  keymaps : Nat → List Keybinding

/-- The empty registry state. -/
def KeybindingRegistryState.initial : KeybindingRegistryState :=
  ⟨fun _ => []⟩

/-- `KeybindingRegistry.isPseudoCommand`. -/
def isPseudoCommand (commandId : String) : Bool :=
  commandId == PASSTHROUGH_PSEUDO_COMMAND

/-- The test `command && command.id === commandId` shared by
`getKeybindingsForCommand` and `getScopedKeybindingsForCommand`: the
binding's command resolves in the command registry to the queried id. -/
def commandMatches (env : Env) (commandId : String) (binding : Keybinding) : Bool :=
  match env.getCommand binding.command with
  | some command => command.id == commandId
  | none => false

/-- `KeybindingRegistry.getScopedKeybindingsForCommand`: the bindings of
one scope whose command resolves in the command registry to the queried
command id. -/
def getScopedKeybindingsForCommand (env : Env) (st : KeybindingRegistryState)
    (scope : Nat) (commandId : String) : List Keybinding :=
  if KeybindingScope.END ≤ scope then
    []
  else
    (st.keymaps scope).filter (commandMatches env commandId)

/-- The recursion of `KeybindingRegistry.isKeybindingShadowed`, made
structural on the distance `END - scope` that the source recursion
decreases: fuel `0` is exactly the `scope >= END` early return of the
source, and each step advances to `scope + 1`. -/
def isKeybindingShadowedGo (env : Env) (st : KeybindingRegistryState)
    (binding : Keybinding) : Nat → Nat → Bool
  | 0, _ => false
  | fuel + 1, scope =>
    let nextScope := scope + 1
    if 0 < (getScopedKeybindingsForCommand env st nextScope binding.command).length then
      true
    else
      isKeybindingShadowedGo env st binding fuel nextScope

/-- `KeybindingRegistry.isKeybindingShadowed`: recursively checks every
strictly more specific scope for a binding of the same command. -/
def isKeybindingShadowed (env : Env) (st : KeybindingRegistryState)
    (scope : Nat) (binding : Keybinding) : Bool :=
  isKeybindingShadowedGo env st binding (KeybindingScope.END - scope) scope

/-- The JavaScript truthiness test `if (binding.context)` composed with
`getContext`: the resolved context of a binding, when its context id is a
non-empty string that resolves in the context registry. -/
def resolvedContext (env : Env) (binding : Keybinding) : Option KeybindingContext :=
  match binding.context with
  | none => none
  | some cid => if cid == "" then none else getContext env.contexts cid

/-- The comparator of `KeybindingRegistry.sortKeybindingsByPriority` as a
boolean total preorder: `a` may precede `b` unless `a` lacks a resolved
context while `b` has one. -/
def priorityLE (env : Env) (a b : Keybinding) : Bool :=
  (resolvedContext env a).isSome || !(resolvedContext env b).isSome

/-- Stable insertion into a sorted list (the embedding of the stable
comparator sort guaranteed by `Array.prototype.sort`). -/
def orderedInsertB {α : Type} (le : α → α → Bool) (a : α) : List α → List α
  | [] => [a]
  | b :: l => if le a b then a :: b :: l else b :: orderedInsertB le a l

/-- Stable insertion sort with a boolean comparator. -/
def insertionSortB {α : Type} (le : α → α → Bool) : List α → List α
  | [] => []
  | a :: l => orderedInsertB le a (insertionSortB le l)

/-- `KeybindingRegistry.sortKeybindingsByPriority`: a stable sort under
the two-class comparator — bindings with a resolved context first. -/
def sortKeybindingsByPriority (env : Env) (keybindings : List Keybinding) :
    List Keybinding :=
  insertionSortB (priorityLE env) keybindings

/-- The per-binding test of the `getKeybindingsForKeyCode` scan: the
stored keystroke parses (unparsable entries are logged and skipped) to a
Key Code equal to the query, and the binding is not shadowed. -/
def keyCodeMatches (env : Env) (st : KeybindingRegistryState)
    (keyCode : KeyCode) (scope : Nat) (binding : Keybinding) : Bool :=
  match KeyCode.parse env.isOSX binding.keybinding with
  | .ok bindingKeyCode =>
    KeyCode.equals bindingKeyCode keyCode
      && !isKeybindingShadowed env st scope binding
  | .error _ => false

/-- `KeybindingRegistry.getKeybindingsForKeyCode`: collect, scanning
scopes in ascending order, the bindings matching the queried Key Code,
then priority-sort the result. -/
def getKeybindingsForKeyCode (env : Env) (st : KeybindingRegistryState)
    (keyCode : KeyCode) : List Keybinding :=
  sortKeybindingsByPriority env <|
    (List.range KeybindingScope.END).flatMap fun scope =>
      (st.keymaps scope).filter (keyCodeMatches env st keyCode scope)

/-- The descending scope scan of `KeybindingRegistry.getKeybindingsForCommand`
(`for (let scope = END - 1; scope >= DEFAULT; scope--)`), carrying the
accumulated result list of the source. -/
def getKeybindingsForCommandLoop (env : Env) (st : KeybindingRegistryState)
    (commandId : String) : List Nat → List Keybinding → List Keybinding
  | [], result => result
  | scope :: rest, result =>
    let result := result ++ (st.keymaps scope).filter (commandMatches env commandId)
    if 0 < result.length then result
    else getKeybindingsForCommandLoop env st commandId rest result

/-- `KeybindingRegistry.getKeybindingsForCommand`: scan scopes from the
highest down to `DEFAULT`, returning the first non-empty match set. -/
def getKeybindingsForCommand (env : Env) (st : KeybindingRegistryState)
    (commandId : String) : List Keybinding :=
  getKeybindingsForCommandLoop env st commandId
    [KeybindingScope.WORKSPACE, KeybindingScope.USER, KeybindingScope.DEFAULT] []

/-- `KeybindingRegistry.registerKeybinding`: reject (with a logged
warning) when the keystroke fails to parse, or when an existing binding
for the same Key Code carries an identical context field; otherwise push
onto the `DEFAULT` scope. -/
def registerKeybinding (env : Env) (st : KeybindingRegistryState)
    (binding : Keybinding) : KeybindingRegistryState :=
  match KeyCode.parse env.isOSX binding.keybinding with
  | .error _ => st
  | .ok keyCode =>
    let existingBindings := getKeybindingsForKeyCode env st keyCode
    if 0 < existingBindings.length then
      let collided := existingBindings.filter fun b => b.context == binding.context
      if 0 < collided.length then
        st
      else
        ⟨fun s => if s = KeybindingScope.DEFAULT
          then st.keymaps s ++ [binding] else st.keymaps s⟩
    else
      ⟨fun s => if s = KeybindingScope.DEFAULT
        then st.keymaps s ++ [binding] else st.keymaps s⟩

/-- `KeybindingRegistry.resetKeybindingsForScope`. -/
def resetKeybindingsForScope (st : KeybindingRegistryState) (scope : Nat) :
    KeybindingRegistryState :=
  ⟨fun s => if s = scope then [] else st.keymaps s⟩

/-- The validation loop of `KeybindingRegistry.setKeymap`, carrying the
`customBindings` accumulator of the source: on the first unparsable entry
the scope is reset and the loop aborts. -/
def setKeymapLoop (env : Env) (st : KeybindingRegistryState) (scope : Nat)
    (custom : List Keybinding) : List Keybinding → KeybindingRegistryState
  | [] => ⟨fun s => if s = scope then custom else st.keymaps s⟩
  | keybinding :: rest =>
    match KeyCode.parse env.isOSX keybinding.keybinding with
    | .ok _ => setKeymapLoop env st scope (custom ++ [keybinding]) rest
    | .error _ => resetKeybindingsForScope st scope

/-- `KeybindingRegistry.setKeymap`. -/
def setKeymap (env : Env) (st : KeybindingRegistryState) (scope : Nat)
    (keybindings : List Keybinding) : KeybindingRegistryState :=
  setKeymapLoop env st scope [] keybindings

/-- A keyboard event as far as `KeybindingRegistry.run` observes it: the
Key Code that `KeyCode.createKeyCode` derives from it, and its
`defaultPrevented` flag. -/
structure KeyboardEvent where
  keyCode : KeyCode
  defaultPrevented : Bool
deriving DecidableEq, Repr

/-- The observable effect of one `KeybindingRegistry.run` invocation: the
command ids whose active handler was executed, and whether
`preventDefault` / `stopPropagation` were called on the event. -/
structure RunEffect where
  executed : List String
  preventedDefault : Bool
  stoppedPropagation : Bool
deriving DecidableEq, Repr

/-- The effect of an invocation that does nothing to the event. -/
def RunEffect.none : RunEffect :=
  ⟨[], false, false⟩

/-- Whether `run` may fire a binding: its context is absent (or does not
resolve — the JavaScript `!context` test), or the context predicate
returns true for it. -/
def runEligible (env : Env) (binding : Keybinding) : Bool :=
  match resolvedContext env binding with
  | none => true
  | some context => context.isEnabled binding

/-- The candidate loop of `KeybindingRegistry.run`: the first
context-eligible binding is terminal; a pseudo-command leaves the event
untouched; otherwise, when the command resolves, its active handler (if
any) executes and the event is marked handled. -/
def runLoop (env : Env) : List Keybinding → RunEffect
  | [] => RunEffect.none
  | binding :: rest =>
    if runEligible env binding then
      if isPseudoCommand binding.command then
        RunEffect.none
      else
        match env.getCommand binding.command with
        | some command =>
          { executed := if env.hasActiveHandler command.id then [command.id] else []
            preventedDefault := true
            stoppedPropagation := true }
        | none => RunEffect.none
    else
      runLoop env rest

/-- `KeybindingRegistry.run`. -/
def run (env : Env) (st : KeybindingRegistryState) (event : KeyboardEvent) :
    RunEffect :=
  if event.defaultPrevented then
    RunEffect.none
  else
    runLoop env (getKeybindingsForKeyCode env st event.keyCode)

/-! Concrete registries, bindings and events used as witness inputs. -/

/-- A binding whose command is absent from the command directory. -/
def ghostBinding : Keybinding := ⟨"ghost.command", "ctrl+a", none⟩

def ghostEnv : Env := ⟨false, [], [], []⟩

def ghostState : KeybindingRegistryState :=
  ⟨fun s => if s = KeybindingScope.DEFAULT then [ghostBinding] else []⟩

def ghostEvent : KeyboardEvent := ⟨⟨Key.keyA, true, false, false, false⟩, false⟩

/-- A binding whose command has an active handler. -/
def saveBinding : Keybinding := ⟨"save.command", "ctrl+c", none⟩

def saveEnv : Env := ⟨false, [⟨"save.command"⟩], ["save.command"], []⟩

def saveState : KeybindingRegistryState :=
  ⟨fun s => if s = KeybindingScope.DEFAULT then [saveBinding] else []⟩

def saveEvent : KeyboardEvent := ⟨⟨Key.keyC, true, false, false, false⟩, false⟩

def keymapEnv : Env := ⟨false, [], [], []⟩

/-- A keymap batch whose second entry has an unparsable keystroke. -/
def keymapBad : List Keybinding :=
  [⟨"test.command", "ctrl+c", none⟩, ⟨"test.command", "ctrl+invalid", none⟩]

def keymapOk : List Keybinding := [⟨"test.command", "ctrl+c", none⟩]

/-- A command bound both in `DEFAULT` and in `WORKSPACE` scope, with
different keystrokes. -/
def shadowBinding : Keybinding := ⟨"shadowed.command", "ctrl+a", none⟩

def shadowEnv : Env := ⟨false, [⟨"shadowed.command"⟩], [], []⟩

def shadowState : KeybindingRegistryState :=
  ⟨fun s =>
    if s = KeybindingScope.DEFAULT then [shadowBinding]
    else if s = KeybindingScope.WORKSPACE then [⟨"shadowed.command", "ctrl+b", none⟩]
    else []⟩

/-- An existing contextual binding sharing the keystroke `ctrl+a` with
`collideNew` below; `collideNew`'s command is bound in `WORKSPACE`
scope, so the freshly registered binding is immediately shadowed. -/
def collideExisting : Keybinding := ⟨"cmd.y", "ctrl+a", some "ctx.one"⟩

def collideNew : Keybinding := ⟨"cmd.x", "ctrl+a", none⟩

def collideEnv : Env :=
  ⟨false, [⟨"cmd.x"⟩, ⟨"cmd.y"⟩], [], [⟨"ctx.one", fun _ => true⟩]⟩

def collideState : KeybindingRegistryState :=
  ⟨fun s =>
    if s = KeybindingScope.DEFAULT then [collideExisting]
    else if s = KeybindingScope.WORKSPACE then [⟨"cmd.x", "ctrl+c", none⟩]
    else []⟩

def collideKeyCode : KeyCode := ⟨Key.keyA, true, false, false, false⟩

/-- A contextual binding plus two candidates sharing its keystroke: one
with the identical context and one without a context. -/
def regExisting : Keybinding := ⟨"cmd.a", "ctrl+b", some "ctx.w"⟩

def regSameCtx : Keybinding := ⟨"cmd.b", "ctrl+b", some "ctx.w"⟩

def regDiffCtx : Keybinding := ⟨"cmd.b", "ctrl+b", none⟩

def regEnv : Env :=
  ⟨false, [⟨"cmd.a"⟩, ⟨"cmd.b"⟩], [], [⟨"ctx.w", fun _ => true⟩]⟩

def regState : KeybindingRegistryState :=
  ⟨fun s => if s = KeybindingScope.DEFAULT then [regExisting] else []⟩

def regKeyCode : KeyCode := ⟨Key.keyB, true, false, false, false⟩

/-- The pseudo-command bound to `tab`. -/
def ptBinding : Keybinding := ⟨"passthrough", "tab", none⟩

def ptEnv : Env := ⟨false, [], [], []⟩

def ptState : KeybindingRegistryState :=
  ⟨fun s => if s = KeybindingScope.DEFAULT then [ptBinding] else []⟩

def ptEvent : KeyboardEvent := ⟨⟨Key.tab, false, false, false, false⟩, false⟩

def ctxFresh1 : KeybindingContext := ⟨"ctx.alpha", fun _ => true⟩

def ctxFresh2 : KeybindingContext := ⟨"ctx.beta", fun _ => false⟩

/-- A context whose id collides with the built-in NOOP context. -/
def ctxDupNoop : KeybindingContext := ⟨"noop.keybinding.context", fun _ => true⟩

/-- A shadowed binding whose keystroke and (absent) context are exactly
matched by the fresh candidate `blindNew`. -/
def blindShadowed : Keybinding := ⟨"cmd.s", "ctrl+a", none⟩

def blindNew : Keybinding := ⟨"cmd.z", "ctrl+a", none⟩

def blindEnv : Env := ⟨false, [⟨"cmd.s"⟩], [], []⟩

def blindState : KeybindingRegistryState :=
  ⟨fun s =>
    if s = KeybindingScope.DEFAULT then [blindShadowed]
    else if s = KeybindingScope.WORKSPACE then [⟨"cmd.s", "ctrl+c", none⟩]
    else []⟩

def blindKeyCode : KeyCode := ⟨Key.keyA, true, false, false, false⟩

/-! Helper lemmas about the stable priority sort. -/

theorem mem_orderedInsertB {α : Type} (le : α → α → Bool) (a b : α) :
    ∀ l : List α, b ∈ orderedInsertB le a l ↔ b = a ∨ b ∈ l := by
  intro l
  induction l with
  | nil => simp [orderedInsertB]
  | cons c l ih =>
    by_cases h : le a c = true
    · simp [orderedInsertB, h]
    · simp only [orderedInsertB, h]
      simp only [Bool.false_eq_true, if_false, List.mem_cons, ih]
      tauto

theorem mem_insertionSortB {α : Type} (le : α → α → Bool) (b : α) :
    ∀ l : List α, b ∈ insertionSortB le l ↔ b ∈ l := by
  intro l
  induction l with
  | nil => simp [insertionSortB]
  | cons a l ih =>
    simp [insertionSortB, mem_orderedInsertB, ih]

theorem orderedInsertB_two_class {α : Type} (p : α → Bool) (a : α) :
    ∀ F G : List α, (∀ b ∈ F, p b = true) → (∀ b ∈ G, p b = false) →
      orderedInsertB (fun x y => p x || !p y) a (F ++ G) =
        if p a then a :: (F ++ G) else F ++ a :: G := by
  intro F
  induction F with
  | nil =>
    intro G _ hG
    cases G with
    | nil => simp [orderedInsertB]
    | cons g G =>
      have hg : p g = false := hG g (by simp)
      by_cases hpa : p a = true <;>
        simp [orderedInsertB, hg, hpa]
  | cons f F ih =>
    intro G hF hG
    have hf : p f = true := hF f (by simp)
    by_cases hpa : p a = true
    · simp [orderedInsertB, hf, hpa]
    · have hpa2 : p a = false := by simpa using hpa
      have ihr := ih G (fun b hb => hF b (by simp [hb])) hG
      simp only [hpa2, Bool.false_eq_true, if_false] at ihr
      simp [orderedInsertB, hf, hpa2, ihr]

theorem insertionSortB_two_class {α : Type} (p : α → Bool) :
    ∀ l : List α, insertionSortB (fun x y => p x || !p y) l =
      l.filter p ++ l.filter (fun b => !p b) := by
  intro l
  induction l with
  | nil => rfl
  | cons a l ih =>
    have hF : ∀ b ∈ l.filter p, p b = true := by
      intro b hb
      exact (List.mem_filter.mp hb).2
    have hG : ∀ b ∈ l.filter (fun b => !p b), p b = false := by
      intro b hb
      simpa using (List.mem_filter.mp hb).2
    rw [insertionSortB, ih, orderedInsertB_two_class p a _ _ hF hG]
    by_cases hpa : p a = true <;> simp [List.filter_cons, hpa]

theorem sortKeybindingsByPriority_partition (env : Env) (l : List Keybinding) :
    sortKeybindingsByPriority env l =
      l.filter (fun b => (resolvedContext env b).isSome)
        ++ l.filter (fun b => !(resolvedContext env b).isSome) :=
  insertionSortB_two_class (fun b => (resolvedContext env b).isSome) l

theorem mem_sortKeybindingsByPriority (env : Env) (b : Keybinding)
    (l : List Keybinding) :
    b ∈ sortKeybindingsByPriority env l ↔ b ∈ l :=
  mem_insertionSortB (priorityLE env) b l

/-! Helper lemmas about the command directory and shadowing. -/

theorem Env.getCommand_eq_some_id {env : Env} {x : String} {c : Command}
    (h : env.getCommand x = some c) : c.id = x := by
  have hp := List.find?_some h
  simpa using hp

theorem commandMatches_iff (env : Env) (commandId : String) (b : Keybinding) :
    commandMatches env commandId b = true ↔
      b.command = commandId ∧ (env.getCommand b.command).isSome = true := by
  unfold commandMatches
  cases h : env.getCommand b.command with
  | none => simp
  | some c =>
    have hc : c.id = b.command := Env.getCommand_eq_some_id h
    simp [hc]

theorem getScoped_eq_nil_of_end (env : Env) (st : KeybindingRegistryState)
    (scope : Nat) (commandId : String) (h : KeybindingScope.END ≤ scope) :
    getScopedKeybindingsForCommand env st scope commandId = [] := by
  unfold getScopedKeybindingsForCommand
  simp [h]

theorem isKeybindingShadowedGo_iff (env : Env) (st : KeybindingRegistryState)
    (binding : Keybinding) :
    ∀ fuel scope, KeybindingScope.END ≤ scope + fuel →
      (isKeybindingShadowedGo env st binding fuel scope = true ↔
        ∃ s, scope < s ∧ s < KeybindingScope.END ∧
          getScopedKeybindingsForCommand env st s binding.command ≠ []) := by
  intro fuel
  induction fuel with
  | zero =>
    intro scope hsc
    simp only [isKeybindingShadowedGo, Bool.false_eq_true, false_iff]
    rintro ⟨s, hs1, hs2, -⟩
    omega
  | succ fuel ih =>
    intro scope hsc
    simp only [isKeybindingShadowedGo]
    by_cases hnext : getScopedKeybindingsForCommand env st (scope + 1) binding.command = []
    · rw [if_neg (by simp [hnext])]
      rw [ih (scope + 1) (by omega)]
      constructor
      · rintro ⟨s, hs1, hs2, hs3⟩
        exact ⟨s, by omega, hs2, hs3⟩
      · rintro ⟨s, hs1, hs2, hs3⟩
        refine ⟨s, ?_, hs2, hs3⟩
        rcases Nat.lt_or_ge (scope + 1) s with h | h
        · exact h
        · exfalso
          have : s = scope + 1 := by omega
          rw [this] at hs3
          exact hs3 hnext
    · have hlen : 0 < (getScopedKeybindingsForCommand env st (scope + 1) binding.command).length :=
        List.length_pos.mpr hnext
      rw [if_pos hlen]
      have hend : scope + 1 < KeybindingScope.END := by
        by_contra hcon
        exact hnext (getScoped_eq_nil_of_end env st (scope + 1) binding.command (by omega))
      simp only [true_iff]
      exact ⟨scope + 1, by omega, hend, hnext⟩

theorem isKeybindingShadowed_iff (env : Env) (st : KeybindingRegistryState)
    (scope : Nat) (binding : Keybinding) :
    isKeybindingShadowed env st scope binding = true ↔
      ∃ s, scope < s ∧ s < KeybindingScope.END ∧
        getScopedKeybindingsForCommand env st s binding.command ≠ [] := by
  unfold isKeybindingShadowed
  exact isKeybindingShadowedGo_iff env st binding (KeybindingScope.END - scope) scope (by omega)

theorem isKeybindingShadowed_congr (env : Env)
    (st st2 : KeybindingRegistryState) (scope : Nat) (binding : Keybinding)
    (h : ∀ s, scope < s → st2.keymaps s = st.keymaps s) :
    isKeybindingShadowed env st2 scope binding
      = isKeybindingShadowed env st scope binding := by
  have hsc : ∀ s, scope < s →
      getScopedKeybindingsForCommand env st2 s binding.command
        = getScopedKeybindingsForCommand env st s binding.command := by
    intro s hs
    unfold getScopedKeybindingsForCommand
    rw [h s hs]
  rw [Bool.eq_iff_iff, isKeybindingShadowed_iff, isKeybindingShadowed_iff]
  constructor
  · rintro ⟨s, hs1, hs2, hs3⟩
    exact ⟨s, hs1, hs2, by rwa [hsc s hs1] at hs3⟩
  · rintro ⟨s, hs1, hs2, hs3⟩
    exact ⟨s, hs1, hs2, by rwa [hsc s hs1]⟩

/-! Helper lemmas about key-code lookup and the run loop. -/

theorem mem_getKeybindingsForKeyCode (env : Env) (st : KeybindingRegistryState)
    (keyCode : KeyCode) (b : Keybinding) :
    b ∈ getKeybindingsForKeyCode env st keyCode ↔
      ∃ scope ∈ List.range KeybindingScope.END,
        b ∈ st.keymaps scope ∧ keyCodeMatches env st keyCode scope b = true := by
  unfold getKeybindingsForKeyCode
  rw [mem_sortKeybindingsByPriority]
  simp [List.mem_flatMap, List.mem_filter]

theorem runLoop_eq_find (env : Env) :
    ∀ bindings : List Keybinding,
      runLoop env bindings =
        match bindings.find? (runEligible env) with
        | none => RunEffect.none
        | some binding =>
          if isPseudoCommand binding.command then RunEffect.none
          else
            match env.getCommand binding.command with
            | some command =>
              { executed := if env.hasActiveHandler command.id then [command.id] else []
                preventedDefault := true
                stoppedPropagation := true }
            | none => RunEffect.none := by
  intro bindings
  induction bindings with
  | nil => rfl
  | cons b rest ih =>
    by_cases h : runEligible env b = true
    · rw [List.find?_cons_of_pos _ h]
      simp [runLoop, h]
    · have hb : runEligible env b = false := by simpa using h
      rw [List.find?_cons_of_neg _ (by simp [hb])]
      simp [runLoop, hb, ih]

/-! Helper lemmas about the context registry. -/

theorem getContext_append_left (st extra : ContextRegistryState) (cid : String)
    (c : KeybindingContext) (h : getContext st cid = some c) :
    getContext (st ++ extra) cid = some c := by
  induction st with
  | nil => simp [getContext] at h
  | cons d st ih =>
    by_cases hd : (d.id == cid) = true
    · unfold getContext at h ⊢
      simp only [List.find?_cons, hd] at h
      simp only [List.cons_append, List.find?_cons, hd]
      exact h
    · have hdf : (d.id == cid) = false := by simpa using hd
      unfold getContext at h ⊢
      simp only [List.find?_cons, hdf] at h
      simp only [List.cons_append, List.find?_cons, hdf]
      exact ih h

theorem getContext_append_of_left_fresh (st extra : ContextRegistryState)
    (cid : String) (h : (getContext st cid).isSome = false) :
    getContext (st ++ extra) cid = getContext extra cid := by
  induction st with
  | nil => rfl
  | cons d st ih =>
    by_cases hd : (d.id == cid) = true
    · unfold getContext at h
      simp only [List.find?_cons, hd] at h
      simp at h
    · have hdf : (d.id == cid) = false := by simpa using hd
      unfold getContext at h ⊢
      simp only [List.find?_cons, hdf] at h
      simp only [List.cons_append, List.find?_cons, hdf]
      exact ih h

theorem registerContext_isOk_false :
    ∀ (cs : List KeybindingContext) (st : ContextRegistryState),
      (∃ c ∈ cs, (getContext st c.id).isSome = true) →
        (registerContext st cs).isOk = false := by
  intro cs
  induction cs with
  | nil =>
    rintro st ⟨c, hc, -⟩
    simp at hc
  | cons c rest ih =>
    rintro st ⟨d, hd, hds⟩
    by_cases hc : (getContext st c.id).isSome = true
    · simp [registerContext, hc, Except.isOk, Except.toBool]
    · have hcf : (getContext st c.id).isSome = false := by simpa using hc
      rw [registerContext, if_neg (by simp [hcf])]
      apply ih
      rcases List.mem_cons.mp hd with rfl | hdr
      · exact absurd hds hc
      · obtain ⟨e, he⟩ := Option.isSome_iff_exists.mp hds
        exact ⟨d, hdr, by rw [getContext_append_left st [c] d.id e he]; rfl⟩

theorem registerContext_ok :
    ∀ (cs : List KeybindingContext) (st : ContextRegistryState),
      (∀ c ∈ cs, (getContext st c.id).isSome = false) →
      (cs.map (fun c => c.id)).Nodup →
        registerContext st cs = .ok (st ++ cs) := by
  intro cs
  induction cs with
  | nil =>
    intro st _ _
    simp [registerContext]
  | cons c rest ih =>
    intro st hfresh hnd
    have hc : (getContext st c.id).isSome = false := hfresh c (by simp)
    rw [registerContext, if_neg (by simp [hc])]
    rw [List.map_cons, List.nodup_cons] at hnd
    have hfresh2 : ∀ d ∈ rest, (getContext (st ++ [c]) d.id).isSome = false := by
      intro d hd
      rw [getContext_append_of_left_fresh st [c] d.id (hfresh d (by simp [hd]))]
      have hne : (c.id == d.id) = false := by
        simp only [beq_eq_false_iff_ne, ne_eq]
        intro hcon
        exact hnd.1 (hcon ▸ List.mem_map_of_mem (fun x => x.id) hd)
      unfold getContext
      rw [List.find?_cons_of_neg _ (by simpa using hne)]
      rfl
    rw [ih (st ++ [c]) hfresh2 hnd.2]
    simp

theorem getContext_append_mem :
    ∀ (cs : List KeybindingContext) (c : KeybindingContext)
      (st : ContextRegistryState),
      c ∈ cs → (∀ d ∈ cs, (getContext st d.id).isSome = false) →
      (cs.map (fun c => c.id)).Nodup →
        getContext (st ++ cs) c.id = some c := by
  intro cs
  induction cs with
  | nil =>
    intro c st hc _ _
    simp at hc
  | cons d rest ih =>
    intro c st hc hfresh hnd
    rw [List.map_cons, List.nodup_cons] at hnd
    rcases List.mem_cons.mp hc with rfl | hcr
    · rw [getContext_append_of_left_fresh st _ c.id (hfresh c (by simp))]
      unfold getContext
      rw [List.find?_cons_of_pos _ (by simp)]
    · have hcid : c.id ∈ rest.map (fun x => x.id) :=
        List.mem_map_of_mem (fun x => x.id) hcr
      have hne : (d.id == c.id) = false := by
        simp only [beq_eq_false_iff_ne, ne_eq]
        intro hcon
        exact hnd.1 (hcon ▸ hcid)
      rw [getContext_append_of_left_fresh st _ c.id (hfresh c (by simp [hcr]))]
      unfold getContext
      simp only [List.find?_cons, hne]
      have := ih c [] hcr (by intro d hd; simp [getContext]) hnd.2
      simpa [getContext] using this

/-! Helper lemmas about the setKeymap validation loop. -/

theorem setKeymapLoop_keymaps_ok (env : Env) (st : KeybindingRegistryState)
    (scope : Nat) :
    ∀ (rest custom : List Keybinding),
      (∀ b ∈ rest, (KeyCode.parse env.isOSX b.keybinding).isOk = true) →
      ∀ s, (setKeymapLoop env st scope custom rest).keymaps s
        = if s = scope then custom ++ rest else st.keymaps s := by
  intro rest
  induction rest with
  | nil =>
    intro custom _ s
    simp [setKeymapLoop]
  | cons b rest ih =>
    intro custom hok s
    have hb := hok b (by simp)
    cases hp : KeyCode.parse env.isOSX b.keybinding with
    | error e =>
      rw [hp] at hb
      simp [Except.isOk, Except.toBool] at hb
    | ok kc =>
      simp only [setKeymapLoop, hp]
      rw [ih (custom ++ [b]) (fun d hd => hok d (by simp [hd])) s]
      by_cases hs : s = scope <;> simp [hs]

theorem setKeymapLoop_keymaps_bad (env : Env) (st : KeybindingRegistryState)
    (scope : Nat) :
    ∀ (rest custom : List Keybinding),
      (∃ b ∈ rest, (KeyCode.parse env.isOSX b.keybinding).isOk = false) →
      ∀ s, (setKeymapLoop env st scope custom rest).keymaps s
        = if s = scope then [] else st.keymaps s := by
  intro rest
  induction rest with
  | nil =>
    rintro custom ⟨b, hb, -⟩ s
    simp at hb
  | cons b rest ih =>
    rintro custom ⟨d, hd, hbad⟩ s
    cases hp : KeyCode.parse env.isOSX b.keybinding with
    | error e =>
      simp [setKeymapLoop, hp, resetKeybindingsForScope]
    | ok kc =>
      simp only [setKeymapLoop, hp]
      apply ih
      rcases List.mem_cons.mp hd with rfl | hdr
      · rw [hp] at hbad
        simp [Except.isOk, Except.toBool] at hbad
      · exact ⟨d, hdr, hbad⟩

theorem keyCodeMatches_congr (env : Env) (st st2 : KeybindingRegistryState)
    (keyCode : KeyCode) (scope : Nat) (b : Keybinding)
    (h : ∀ t, scope < t → st2.keymaps t = st.keymaps t) :
    keyCodeMatches env st2 keyCode scope b = keyCodeMatches env st keyCode scope b := by
  unfold keyCodeMatches
  rw [isKeybindingShadowed_congr env st st2 scope b h]

/-! The claims. -/

/-- C2: for every scope and supplied binding list, `setKeymap` is
all-or-nothing: if any supplied binding's keystroke fails to parse, the
scope is left empty (no supplied binding, valid or not, is installed);
if every one parses, the scope's previous contents are replaced wholesale
by exactly the supplied list. -/
theorem setKeymap_all_or_nothing (env : Env) (st : KeybindingRegistryState)
    (scope : Nat) (bindings : List Keybinding) :
    ((∃ b ∈ bindings, (KeyCode.parse env.isOSX b.keybinding).isOk = false) →
        (setKeymap env st scope bindings).keymaps scope = [])
  ∧ ((∀ b ∈ bindings, (KeyCode.parse env.isOSX b.keybinding).isOk = true) →
        (setKeymap env st scope bindings).keymaps scope = bindings) := by
  constructor
  · intro hbad
    rw [setKeymap, setKeymapLoop_keymaps_bad env st scope bindings [] hbad scope,
      if_pos rfl]
  · intro hok
    rw [setKeymap, setKeymapLoop_keymaps_ok env st scope bindings [] hok scope,
      if_pos rfl]
    simp

/-- Witness for C2: setting the USER keymap with a batch containing the
unparsable `ctrl+invalid` leaves the USER scope empty, while an all-valid
batch is installed verbatim. -/
theorem setKeymap_all_or_nothing_witness :
    (setKeymap keymapEnv KeybindingRegistryState.initial KeybindingScope.USER
        keymapBad).keymaps KeybindingScope.USER = []
    ∧ (setKeymap keymapEnv KeybindingRegistryState.initial KeybindingScope.USER
        keymapOk).keymaps KeybindingScope.USER = keymapOk :=
  ⟨(setKeymap_all_or_nothing keymapEnv KeybindingRegistryState.initial
      KeybindingScope.USER keymapBad).1 (by decide),
   (setKeymap_all_or_nothing keymapEnv KeybindingRegistryState.initial
      KeybindingScope.USER keymapOk).2 (by decide)⟩

/-- C3: `getKeybindingsForKeyCode` returns exactly the stored bindings,
gathered from scope DEFAULT up through WORKSPACE in ascending order,
whose keystroke parses to a Key Code equal to the query and that are not
shadowed (unparsable entries are skipped without aborting the scan),
ordered so that every binding with a resolvable context precedes every
binding without one and with no other reordering. -/
theorem getKeybindingsForKeyCode_scan_and_sort (env : Env)
    (st : KeybindingRegistryState) (keyCode : KeyCode) :
    getKeybindingsForKeyCode env st keyCode =
      (let collected :=
        [KeybindingScope.DEFAULT, KeybindingScope.USER,
          KeybindingScope.WORKSPACE].flatMap
          fun scope => (st.keymaps scope).filter (keyCodeMatches env st keyCode scope)
      collected.filter (fun b => (resolvedContext env b).isSome)
        ++ collected.filter (fun b => !(resolvedContext env b).isSome)) := by
  have hrange : List.range KeybindingScope.END =
      [KeybindingScope.DEFAULT, KeybindingScope.USER, KeybindingScope.WORKSPACE] := by
    decide
  rw [getKeybindingsForKeyCode, sortKeybindingsByPriority_partition, hrange]

/-- C4: a binding at a scope below END is shadowed exactly when some
strictly higher scope below END holds a binding whose command id equals
its command id and resolves in the command registry — independently of
both bindings' keystrokes, and reaching every higher scope. -/
theorem isKeybindingShadowed_spec (env : Env) (st : KeybindingRegistryState)
    (scope : Nat) (binding : Keybinding) (h : scope < KeybindingScope.END) :
    isKeybindingShadowed env st scope binding = true ↔
      ∃ s ∈ List.range KeybindingScope.END, scope < s ∧
        ∃ b2 ∈ st.keymaps s, b2.command = binding.command ∧
          (env.getCommand b2.command).isSome = true := by
  rw [isKeybindingShadowed_iff]
  constructor
  · rintro ⟨s, hs1, hs2, hne⟩
    rw [getScopedKeybindingsForCommand, if_neg (by omega)] at hne
    obtain ⟨b2, hb2⟩ := List.exists_mem_of_ne_nil _ hne
    have hparts := List.mem_filter.mp hb2
    obtain ⟨hcmd, hsome⟩ :=
      (commandMatches_iff env binding.command b2).mp hparts.2
    exact ⟨s, List.mem_range.mpr hs2, hs1, b2, hparts.1, hcmd, hsome⟩
  · rintro ⟨s, hsr, hs1, b2, hmem, hcmd, hsome⟩
    have hs2 := List.mem_range.mp hsr
    refine ⟨s, hs1, hs2, ?_⟩
    rw [getScopedKeybindingsForCommand, if_neg (by omega)]
    exact List.ne_nil_of_mem (List.mem_filter.mpr
      ⟨hmem, (commandMatches_iff env binding.command b2).mpr ⟨hcmd, hsome⟩⟩)

/-- Witness for C4: a DEFAULT-scope binding of `shadowed.command` is
shadowed by the WORKSPACE-scope binding of the same command even though
the two use different keystrokes and WORKSPACE is not the immediately
next scope. -/
theorem isKeybindingShadowed_spec_witness :
    KeybindingScope.DEFAULT < KeybindingScope.END
    ∧ (isKeybindingShadowed shadowEnv shadowState KeybindingScope.DEFAULT
          shadowBinding = true ↔
        ∃ s ∈ List.range KeybindingScope.END, KeybindingScope.DEFAULT < s ∧
          ∃ b2 ∈ shadowState.keymaps s, b2.command = shadowBinding.command ∧
            (shadowEnv.getCommand b2.command).isSome = true) :=
  ⟨by decide, isKeybindingShadowed_spec shadowEnv shadowState
    KeybindingScope.DEFAULT shadowBinding (by decide)⟩

/-- C7: when the first context-eligible candidate carries the
pseudo-command identifier, `run` executes no handler and leaves the event
unmodified, and no later candidate is considered. -/
theorem run_passthrough_leaves_event (env : Env) (st : KeybindingRegistryState)
    (event : KeyboardEvent) (binding : Keybinding)
    (h1 : event.defaultPrevented = false)
    (h2 : (getKeybindingsForKeyCode env st event.keyCode).find? (runEligible env)
      = some binding)
    (h3 : binding.command = PASSTHROUGH_PSEUDO_COMMAND) :
    run env st event = RunEffect.none := by
  rw [run, if_neg (by simp [h1]), runLoop_eq_find, h2]
  simp [isPseudoCommand, h3]

/-- Witness for C7: the pseudo-command `passthrough` bound to `tab`; on a
tab event no handler runs and the event is untouched. -/
theorem run_passthrough_leaves_event_witness :
    ptEvent.defaultPrevented = false
    ∧ (getKeybindingsForKeyCode ptEnv ptState ptEvent.keyCode).find?
        (runEligible ptEnv) = some ptBinding
    ∧ ptBinding.command = PASSTHROUGH_PSEUDO_COMMAND
    ∧ run ptEnv ptState ptEvent = RunEffect.none :=
  ⟨by decide, by decide, by decide,
    run_passthrough_leaves_event ptEnv ptState ptEvent ptBinding
      (by decide) (by decide) (by decide)⟩

/-- C9: `registerContext` throws when any argument's id is already
registered (the built-ins included); otherwise every argument is inserted
and retrievable via `getContext` by its id. -/
theorem registerContext_spec (st : ContextRegistryState)
    (cs : List KeybindingContext) :
    ((∃ c ∈ cs, (getContext st c.id).isSome = true) →
        (registerContext st cs).isOk = false)
  ∧ ((∀ c ∈ cs, (getContext st c.id).isSome = false) →
      (cs.map (fun c => c.id)).Nodup →
        ∃ st2, registerContext st cs = .ok st2 ∧
          ∀ c ∈ cs, getContext st2 c.id = some c) := by
  constructor
  · exact registerContext_isOk_false cs st
  · intro hfresh hnd
    exact ⟨st ++ cs, registerContext_ok cs st hfresh hnd,
      fun c hc => getContext_append_mem cs c st hc hfresh hnd⟩

/-- Witness for C9: re-registering the NOOP built-in id on the initial
registry throws, while two fresh contexts register and are retrievable. -/
theorem registerContext_spec_witness :
    (registerContext initialContexts [ctxDupNoop]).isOk = false
    ∧ ∃ st2, registerContext initialContexts [ctxFresh1, ctxFresh2] = .ok st2 ∧
        ∀ c ∈ [ctxFresh1, ctxFresh2], getContext st2 c.id = some c :=
  ⟨(registerContext_spec initialContexts [ctxDupNoop]).1
      ⟨ctxDupNoop, by simp, by decide⟩,
   (registerContext_spec initialContexts [ctxFresh1, ctxFresh2]).2
      (by decide) (by decide)⟩

/-- C1 (counterexample to the claim as stated): the first context-eligible
candidate for this ctrl+a event carries a non-pseudo command, yet `run`
neither prevents the event's default nor stops its propagation, because
the command does not resolve in the command registry. -/
theorem run_unresolved_command_not_prevented :
    ghostEvent.defaultPrevented = false
    ∧ (getKeybindingsForKeyCode ghostEnv ghostState ghostEvent.keyCode).find?
        (runEligible ghostEnv) = some ghostBinding
    ∧ isPseudoCommand ghostBinding.command = false
    ∧ run ghostEnv ghostState ghostEvent = RunEffect.none := by
  decide

/-- C1 (amended): for every event whose default is not already prevented,
`run`'s effect is decided solely by the first candidate, in priority
order, whose context is absent (or unresolvable) or whose predicate
returns true — later candidates are never evaluated or executed.  For
that binding: a pseudo-command leaves the event unmodified; a command
that resolves in the command registry has its active handler (when
present) executed and the event's default prevented and propagation
stopped whether or not such a handler exists; a command that does not
resolve leaves the event unmodified. -/
theorem run_takes_first_eligible_binding (env : Env)
    (st : KeybindingRegistryState) (event : KeyboardEvent)
    (h : event.defaultPrevented = false) :
    run env st event =
      match (getKeybindingsForKeyCode env st event.keyCode).find?
          (runEligible env) with
      | none => RunEffect.none
      | some binding =>
        if isPseudoCommand binding.command then RunEffect.none
        else
          match env.getCommand binding.command with
          | some command =>
            { executed := if env.hasActiveHandler command.id then [command.id] else []
              preventedDefault := true
              stoppedPropagation := true }
          | none => RunEffect.none := by
  rw [run, if_neg (by simp [h])]
  exact runLoop_eq_find env _

/-- Witness for C1 (amended): a ctrl+c event against the `save.command`
binding, whose handler is active. -/
theorem run_takes_first_eligible_binding_witness :
    saveEvent.defaultPrevented = false
    ∧ run saveEnv saveState saveEvent =
      match (getKeybindingsForKeyCode saveEnv saveState saveEvent.keyCode).find?
          (runEligible saveEnv) with
      | none => RunEffect.none
      | some binding =>
        if isPseudoCommand binding.command then RunEffect.none
        else
          match saveEnv.getCommand binding.command with
          | some command =>
            { executed := if saveEnv.hasActiveHandler command.id
                then [command.id] else []
              preventedDefault := true
              stoppedPropagation := true }
          | none => RunEffect.none :=
  ⟨by decide,
    run_takes_first_eligible_binding saveEnv saveState saveEvent (by decide)⟩

/-- C5: `getKeybindingsForCommand` returns the command's bindings found
in the highest scope — WORKSPACE, then USER, then DEFAULT — holding at
least one binding whose command resolves to the queried command, and the
empty list when no scope holds one; lower-scope bindings never appear in
a non-empty result. -/
theorem getKeybindingsForCommand_highest_scope (env : Env)
    (st : KeybindingRegistryState) (commandId : String) :
    getKeybindingsForCommand env st commandId =
      (if (st.keymaps KeybindingScope.WORKSPACE).filter
            (commandMatches env commandId) ≠ [] then
        (st.keymaps KeybindingScope.WORKSPACE).filter (commandMatches env commandId)
      else if (st.keymaps KeybindingScope.USER).filter
            (commandMatches env commandId) ≠ [] then
        (st.keymaps KeybindingScope.USER).filter (commandMatches env commandId)
      else
        (st.keymaps KeybindingScope.DEFAULT).filter (commandMatches env commandId)) := by
  simp only [getKeybindingsForCommand, getKeybindingsForCommandLoop,
    List.nil_append]
  by_cases h2 : (st.keymaps KeybindingScope.WORKSPACE).filter
      (commandMatches env commandId) = []
  · simp only [h2, List.length_nil, Nat.lt_irrefl, if_false, List.nil_append,
      ne_eq, not_true_eq_false]
    by_cases h1 : (st.keymaps KeybindingScope.USER).filter
        (commandMatches env commandId) = []
    · simp [h1]
    · have hl1 : 0 < ((st.keymaps KeybindingScope.USER).filter
          (commandMatches env commandId)).length := List.length_pos.mpr h1
      simp [h1, hl1]
  · have hl2 : 0 < ((st.keymaps KeybindingScope.WORKSPACE).filter
        (commandMatches env commandId)).length := List.length_pos.mpr h2
    simp [h2, hl2]

set_option maxRecDepth 200000 in
/-- C8: for every valid Key Code — one whose meta modifier is only set on
an Apple platform — and either platform setting, parsing the canonical
serialization yields a Key Code equal to the original under
`KeyCode.equals`. -/
theorem keyCode_parse_toString_roundtrip :
    ∀ (isOSX : Bool) (kc : KeyCode), (kc.meta = true → isOSX = true) →
      (KeyCode.parse isOSX (KeyCode.toString kc)).toOption.map
        (fun kc2 => KeyCode.equals kc2 kc) = some true := by
  decide

/-- Witness for C8: the meta+b Key Code round-trips on the Apple
platform. -/
theorem keyCode_parse_toString_roundtrip_witness :
    ((⟨Key.keyB, false, true, false, false⟩ : KeyCode).meta = true → true = true)
    ∧ (KeyCode.parse true
          (KeyCode.toString ⟨Key.keyB, false, true, false, false⟩)).toOption.map
        (fun kc2 => KeyCode.equals kc2 ⟨Key.keyB, false, true, false, false⟩)
      = some true :=
  ⟨fun _ => rfl,
    keyCode_parse_toString_roundtrip true ⟨Key.keyB, false, true, false, false⟩
      (fun _ => rfl)⟩

/-- C6 (counterexample to the claim as stated): `collideNew` parses, no
existing binding for its key code shares its context, and it is appended
to the DEFAULT scope — yet it is not returned by
`getKeybindingsForKeyCode` afterwards, because its command is shadowed by
a WORKSPACE-scope binding. -/
theorem registerKeybinding_shadowed_not_returned :
    KeyCode.parse collideEnv.isOSX collideNew.keybinding = .ok collideKeyCode
    ∧ (∀ b ∈ getKeybindingsForKeyCode collideEnv collideState collideKeyCode,
        (b.context == collideNew.context) = false)
    ∧ (registerKeybinding collideEnv collideState collideNew).keymaps
        KeybindingScope.DEFAULT
        = collideState.keymaps KeybindingScope.DEFAULT ++ [collideNew]
    ∧ collideNew ∉ getKeybindingsForKeyCode collideEnv
        (registerKeybinding collideEnv collideState collideNew) collideKeyCode := by
  decide

/-- C6 (amended): for a binding whose keystroke parses: if some binding
already returned by `getKeybindingsForKeyCode` for the same Key Code
carries an identical context field, `registerKeybinding` leaves the state
unchanged (so the earlier binding stays resolvable) without throwing;
otherwise the binding is appended to the DEFAULT scope and no other scope
changes, and — provided no strictly higher scope holds a binding whose
command resolves to the new binding's command — the new binding and every
previously returned binding are all returned by
`getKeybindingsForKeyCode` for that Key Code. -/
theorem registerKeybinding_collision_spec (env : Env)
    (st : KeybindingRegistryState) (binding : Keybinding) (kc : KeyCode)
    (hp : KeyCode.parse env.isOSX binding.keybinding = .ok kc) :
    ((∃ b ∈ getKeybindingsForKeyCode env st kc,
        (b.context == binding.context) = true) →
      registerKeybinding env st binding = st)
  ∧ ((∀ b ∈ getKeybindingsForKeyCode env st kc,
        (b.context == binding.context) = false) →
      ((registerKeybinding env st binding).keymaps KeybindingScope.DEFAULT
          = st.keymaps KeybindingScope.DEFAULT ++ [binding])
      ∧ (∀ s, s ≠ KeybindingScope.DEFAULT →
          (registerKeybinding env st binding).keymaps s = st.keymaps s)
      ∧ ((∀ s ∈ List.range KeybindingScope.END, KeybindingScope.DEFAULT < s →
            (st.keymaps s).filter (commandMatches env binding.command) = []) →
          binding ∈ getKeybindingsForKeyCode env
            (registerKeybinding env st binding) kc
          ∧ ∀ b ∈ getKeybindingsForKeyCode env st kc,
              b ∈ getKeybindingsForKeyCode env
                (registerKeybinding env st binding) kc)) := by
  constructor
  · rintro ⟨b, hb, hctx⟩
    have hlen : 0 < (getKeybindingsForKeyCode env st kc).length :=
      List.length_pos_of_mem hb
    have hcl : 0 < ((getKeybindingsForKeyCode env st kc).filter
        (fun b => b.context == binding.context)).length :=
      List.length_pos_of_mem (List.mem_filter.mpr ⟨hb, hctx⟩)
    simp only [registerKeybinding, hp, if_pos hlen, if_pos hcl]
  · intro hnc
    have hnil : (getKeybindingsForKeyCode env st kc).filter
        (fun b => b.context == binding.context) = [] := by
      rw [List.filter_eq_nil_iff]
      intro b hb
      simp [hnc b hb]
    have hpush : registerKeybinding env st binding =
        ⟨fun s => if s = KeybindingScope.DEFAULT
          then st.keymaps s ++ [binding] else st.keymaps s⟩ := by
      simp only [registerKeybinding, hp]
      by_cases hlen : 0 < (getKeybindingsForKeyCode env st kc).length
      · rw [if_pos hlen, hnil]
        simp
      · rw [if_neg hlen]
    have hagree : ∀ t, 0 < t →
        (registerKeybinding env st binding).keymaps t = st.keymaps t := by
      intro t ht
      rw [hpush]
      simp only [KeybindingScope.DEFAULT]
      rw [if_neg (by omega)]
    refine ⟨?_, ?_, ?_⟩
    · rw [hpush]
      simp
    · intro s hs
      rw [hpush]
      simp [hs]
    · intro hhigher
      have hshadowfree : isKeybindingShadowed env
          (registerKeybinding env st binding) KeybindingScope.DEFAULT binding
            = false := by
        rw [Bool.eq_false_iff]
        intro hcon
        obtain ⟨s, hs1, hs2, hne⟩ := (isKeybindingShadowed_iff env _ _ _).mp hcon
        apply hne
        rw [getScopedKeybindingsForCommand, if_neg (by omega),
          hagree s (by simpa [KeybindingScope.DEFAULT] using hs1)]
        exact hhigher s (List.mem_range.mpr hs2)
          (by simpa [KeybindingScope.DEFAULT] using hs1)
      constructor
      · rw [mem_getKeybindingsForKeyCode]
        refine ⟨KeybindingScope.DEFAULT, by decide, ?_, ?_⟩
        · rw [hpush]
          simp
        · unfold keyCodeMatches
          rw [hp, hshadowfree]
          simp [KeyCode.equals]
      · intro b hb
        rw [mem_getKeybindingsForKeyCode] at hb
        obtain ⟨s, hsr, hmem, hkm⟩ := hb
        rw [mem_getKeybindingsForKeyCode]
        refine ⟨s, hsr, ?_, ?_⟩
        · rw [hpush]
          by_cases hs : s = KeybindingScope.DEFAULT
          · subst hs
            simp only [if_pos rfl]
            exact List.mem_append_left _ hmem
          · simpa [hs] using hmem
        · rw [keyCodeMatches_congr env st (registerKeybinding env st binding)
            kc s b (fun t ht => hagree t (by omega))]
          exact hkm

/-- Witness for C6 (amended): registering `regSameCtx` (identical
keystroke and context as `regExisting`) leaves the registry unchanged,
while registering `regDiffCtx` (same keystroke, no context) appends it
and both bindings are returned for ctrl+b. -/
theorem registerKeybinding_collision_spec_witness :
    registerKeybinding regEnv regState regSameCtx = regState
    ∧ (registerKeybinding regEnv regState regDiffCtx).keymaps
        KeybindingScope.DEFAULT
        = regState.keymaps KeybindingScope.DEFAULT ++ [regDiffCtx]
    ∧ regDiffCtx ∈ getKeybindingsForKeyCode regEnv
        (registerKeybinding regEnv regState regDiffCtx) regKeyCode
    ∧ ∀ b ∈ getKeybindingsForKeyCode regEnv regState regKeyCode,
        b ∈ getKeybindingsForKeyCode regEnv
          (registerKeybinding regEnv regState regDiffCtx) regKeyCode :=
  ⟨(registerKeybinding_collision_spec regEnv regState regSameCtx regKeyCode
      (by decide)).1 (by decide),
   ((registerKeybinding_collision_spec regEnv regState regDiffCtx regKeyCode
      (by decide)).2 (by decide)).1,
   (((registerKeybinding_collision_spec regEnv regState regDiffCtx regKeyCode
      (by decide)).2 (by decide)).2.2 (by decide)).1,
   (((registerKeybinding_collision_spec regEnv regState regDiffCtx regKeyCode
      (by decide)).2 (by decide)).2.2 (by decide)).2⟩

/-- C10: a candidate binding whose keystroke and context exactly match an
existing binding is nevertheless pushed onto the DEFAULT scope whenever
every such matching binding is shadowed — the collision check inspects
only `getKeybindingsForKeyCode`, which excludes shadowed bindings. -/
theorem registerKeybinding_blind_to_shadowed (env : Env)
    (st : KeybindingRegistryState) (binding : Keybinding) (kc : KeyCode)
    (hp : KeyCode.parse env.isOSX binding.keybinding = .ok kc)
    (hshadowed : ∀ scope ∈ List.range KeybindingScope.END,
      ∀ b ∈ st.keymaps scope,
        (match KeyCode.parse env.isOSX b.keybinding with
          | .ok bkc => KeyCode.equals bkc kc
          | .error _ => false) = true →
        (b.context == binding.context) = true →
        isKeybindingShadowed env st scope b = true)
    (hexists : ∃ scope ∈ List.range KeybindingScope.END,
      ∃ b ∈ st.keymaps scope,
        (match KeyCode.parse env.isOSX b.keybinding with
          | .ok bkc => KeyCode.equals bkc kc
          | .error _ => false) = true
        ∧ (b.context == binding.context) = true) :
    (registerKeybinding env st binding).keymaps KeybindingScope.DEFAULT
      = st.keymaps KeybindingScope.DEFAULT ++ [binding] := by
  clear hexists
  have hcoll : ∀ b ∈ getKeybindingsForKeyCode env st kc,
      (b.context == binding.context) = false := by
    intro b hb
    obtain ⟨scope, hsr, hmem, hkm⟩ :=
      (mem_getKeybindingsForKeyCode env st kc b).mp hb
    rw [Bool.eq_false_iff]
    intro hctx
    unfold keyCodeMatches at hkm
    cases hpb : KeyCode.parse env.isOSX b.keybinding with
    | error e =>
      rw [hpb] at hkm
      simp at hkm
    | ok bkc =>
      rw [hpb] at hkm
      simp only [Bool.and_eq_true] at hkm
      obtain ⟨heq, hnsh⟩ := hkm
      have hsh := hshadowed scope hsr b hmem (by rw [hpb]; exact heq) hctx
      rw [hsh] at hnsh
      simp at hnsh
  have hnil : (getKeybindingsForKeyCode env st kc).filter
      (fun b => b.context == binding.context) = [] := by
    rw [List.filter_eq_nil_iff]
    intro b hb
    simp [hcoll b hb]
  simp only [registerKeybinding, hp]
  by_cases hlen : 0 < (getKeybindingsForKeyCode env st kc).length
  · rw [if_pos hlen, hnil]
    simp
  · rw [if_neg hlen]
    simp

/-- Witness for C10: `blindNew` exactly matches the shadowed
`blindShadowed` in keystroke and (absent) context, and is accepted into
the DEFAULT scope. -/
theorem registerKeybinding_blind_to_shadowed_witness :
    (∃ scope ∈ List.range KeybindingScope.END,
      ∃ b ∈ blindState.keymaps scope,
        (match KeyCode.parse blindEnv.isOSX b.keybinding with
          | .ok bkc => KeyCode.equals bkc blindKeyCode
          | .error _ => false) = true
        ∧ (b.context == blindNew.context) = true)
    ∧ (registerKeybinding blindEnv blindState blindNew).keymaps
        KeybindingScope.DEFAULT
        = blindState.keymaps KeybindingScope.DEFAULT ++ [blindNew] :=
  ⟨by decide,
    registerKeybinding_blind_to_shadowed blindEnv blindState blindNew
      blindKeyCode (by decide) (by decide) (by decide)⟩

end Theia
